import Mathlib

/-!
Shallow embedding of the live-market-risk quantitative core:
returns engine, VaR/ES calculator, backtest engine, stress testing,
and the breach alert monitor.  Real numbers of the Python source are
modelled as rationals; the transcendental library functions it calls
(natural log, normal inverse CDF, square root, chi-square CDF) are
abstracted as explicit function parameters, so every definition stays
computable and the structural claims can be settled for every choice
of those functions.
-/

namespace LMR

/-! ### Returns engine (src/returns_engine/returns.py) -/

/-- Classification of an IEEE-style float value produced by
`np.log(close / close.shift(1))`: a finite value `fin r` stands for
`ln r` with `r > 0` the price ratio, or one of the non-finite values. -/
inductive RVal where
  | fin (ratio : ℚ)
  | pinf
  | ninf
  | nan
  deriving DecidableEq, Repr

/-- `true` iff the value is neither NaN nor an infinity. -/
def RVal.isFinite : RVal → Bool
  | .fin _ => true
  | _ => false

/-- The float `np.log(cur / prev)`:
division by zero yields ±inf (or NaN for 0/0), the log of a
non-positive finite ratio yields -inf (at 0) or NaN (below 0),
and the log of a positive ratio is finite. -/
def logRet (prev cur : ℚ) : RVal :=
  if prev = 0 then
    if cur > 0 then .pinf else .nan
  else
    let r := cur / prev
    if r > 0 then .fin r
    else if r = 0 then .ninf
    else .nan

/-- `ReturnsEngine.calculate_returns`: fewer than 2 prices fails;
otherwise the consecutive log returns with the NaN entries removed
by `dropna()` (which does not remove infinities). -/
def calculate_returns (prices : List ℚ) : Option (List RVal) :=
  if prices.length < 2 then none
  else some (((prices.zip prices.tail).map (fun pq => logRet pq.1 pq.2)).filter
    (fun v => v ≠ RVal.nan))

/-! ### VaR calculator (src/risk_metrics/var_calculator.py) -/

/-- Result record of `historical_var` (the `var_return` field is the
percentage, `var_dollar` the currency amount). -/
structure HistRes where
  var_return : ℚ
  var_dollar : ℚ
  confidence : ℚ
  deriving DecidableEq, Repr

/-- Result record of `parametric_var`. -/
structure ParamRes where
  var_return : ℚ
  var_dollar : ℚ
  confidence : ℚ
  deriving DecidableEq, Repr

/-- Result record of `expected_shortfall`. -/
structure ESRes where
  es_return : ℚ
  es_dollar : ℚ
  confidence : ℚ
  deriving DecidableEq, Repr

/-- `np.sort`: the returns in ascending order. -/
def sortedR (returns : List ℚ) : List ℚ :=
  returns.insertionSort (· ≤ ·)

/-- `int((1 - confidence_level) * len(sorted_returns))`.
Python truncates toward zero; for `0 < c ≤ 1` the operand is
non-negative, so this is the floor (negative operands cannot arise in
the claims settled below). -/
def varIndex (c : ℚ) (n : ℕ) : ℕ :=
  (⌊(1 - c) * (n : ℚ)⌋).toNat

/-- `VaRCalculator.historical_var`. -/
def historical_var (returns : List ℚ) (c v : ℚ) : Option HistRes :=
  if returns.length < 10 then none
  else
    let sorted := sortedR returns
    let vr := sorted.getD (varIndex c returns.length) 0
    some ⟨|vr| * 100, |vr * v|, c⟩

/-- Mean of a list of rationals (`.mean()`); 0 on the empty list. -/
def listMean (l : List ℚ) : ℚ := l.sum / (l.length : ℚ)

/-- Population variance of a list (`.std()` squared, ddof = 0). -/
def listVariance (l : List ℚ) : ℚ :=
  listMean (l.map (fun x => (x - listMean l) ^ 2))

/-- `VaRCalculator.parametric_var`, with `sqrtF` standing for the
float square root and `ppf` for `scipy.stats.norm.ppf`. -/
def parametric_var (sqrtF ppf : ℚ → ℚ) (returns : List ℚ) (c v : ℚ) :
    Option ParamRes :=
  if returns.length < 10 then none
  else
    let mean := listMean returns
    let std := sqrtF (listVariance returns)
    let z := ppf (1 - c)
    let vr := |mean + z * std|
    some ⟨vr * 100, vr * v, c⟩

/-- `VaRCalculator.expected_shortfall`: mean of the sorted tail
`sorted_returns[:var_index + 1]`, in absolute value. -/
def expected_shortfall (returns : List ℚ) (c v : ℚ) : Option ESRes :=
  if returns.length < 10 then none
  else
    let sorted := sortedR returns
    let tail := sorted.take (varIndex c returns.length + 1)
    let es := |listMean tail|
    some ⟨es * 100, es * v, c⟩

/-- One entry of the metrics mapping built by `calculate_all_metrics`. -/
inductive MetricEntry where
  | histE (h : HistRes)
  | paramE (p : ParamRes)
  | esE (e : ESRes)
  deriving DecidableEq, Repr

/-- The f-string `f"{int(conf * 100)}%"`. -/
def confLabel (conf : ℚ) : String :=
  toString (⌊conf * 100⌋).toNat ++ "%"

/-- `VaRCalculator.calculate_all_metrics`: for each confidence in
{0.95, 0.99} add the historical-VaR, parametric-VaR and ES entries
that are available, skipping the unavailable ones. -/
def calculate_all_metrics (sqrtF ppf : ℚ → ℚ) (returns : List ℚ) (v : ℚ) :
    List (String × MetricEntry) :=
  ([(95 / 100 : ℚ), 99 / 100]).foldl (fun metrics conf =>
    let label := confLabel conf
    let m1 := match historical_var returns conf v with
      | some h => metrics ++ [("var_" ++ label ++ "_hist", MetricEntry.histE h)]
      | none => metrics
    let m2 := match parametric_var sqrtF ppf returns conf v with
      | some p => m1 ++ [("var_" ++ label ++ "_param", MetricEntry.paramE p)]
      | none => m1
    match expected_shortfall returns conf v with
      | some e => m2 ++ [("es_" ++ label, MetricEntry.esE e)]
      | none => m2) []

/-! ### Backtest engine (src/back_testing/validator.py) -/

/-- `BacktestEngine.count_breaches`: number of returns strictly below
`-(var_threshold / 100)`. -/
def count_breaches (returns : List ℚ) (var_threshold : ℚ) : ℕ :=
  (returns.filter (fun r => r < -(var_threshold / 100))).length

/-- The traffic light colours. -/
inductive Light where
  | GREEN
  | YELLOW
  | RED
  deriving DecidableEq, Repr

/-- `BacktestEngine.basel_traffic_light`: at confidence exactly 0.95
the three-band scheme, otherwise the two-band 99% scheme. -/
def basel_traffic_light (breaches total_days : ℕ) (confidence_level : ℚ) :
    Light × String :=
  let _expected_breaches := (total_days : ℚ) * (1 - confidence_level)
  if confidence_level = 95 / 100 then
    if breaches ≤ 4 then (.GREEN, "Model is accurate")
    else if breaches ≤ 9 then (.YELLOW, "Model needs attention")
    else (.RED, "Model is inadequate")
  else
    if breaches ≤ 2 then (.GREEN, "Model is accurate")
    else (.RED, "Model is inadequate")

/-- Result record of `kupiec_test`. -/
structure KupiecRes where
  lr_statistic : ℚ
  critical_value : ℚ
  p_value : ℚ
  reject_model : Bool
  deriving DecidableEq, Repr

/-- `BacktestEngine.kupiec_test`, with `logF` standing for `np.log`
and `chi2cdf` for `scipy.stats.chi2.cdf(·, df=1)`. -/
def kupiec_test (logF chi2cdf : ℚ → ℚ) (breaches total_days : ℕ) (c : ℚ) :
    KupiecRes :=
  let expected_rate := 1 - c
  let observed_rate := (breaches : ℚ) / (total_days : ℚ)
  let lr_stat : ℚ :=
    if breaches = 0 ∨ breaches = total_days then 0
    else -2 *
      (logF (expected_rate ^ breaches * (1 - expected_rate) ^ (total_days - breaches))
        - logF (observed_rate ^ breaches * (1 - observed_rate) ^ (total_days - breaches)))
  let critical_value : ℚ := 3841 / 1000
  ⟨lr_stat, critical_value, 1 - chi2cdf lr_stat, lr_stat > critical_value⟩

/-- The `var_return` field of a metrics entry, when the entry is a
dict that has one (the ES dict does not). -/
def MetricEntry.varReturn? : MetricEntry → Option ℚ
  | .histE h => some h.var_return
  | .paramE p => some p.var_return
  | .esE _ => none

/-- One per-confidence record of `backtest_results`. -/
structure BTReport where
  breaches : ℕ
  total_days : ℕ
  breach_rate : ℚ
  expected_rate : ℚ
  traffic_light : Light
  traffic_message : String
  kupiec : KupiecRes
  deriving DecidableEq, Repr

/-- `BacktestEngine.backtest_results`: fewer than 30 observations
fails; otherwise one report per confidence in {0.95, 0.99} whose
historical-VaR entry is present in `var_metrics`, the rest silently
omitted.  (`position_value` is accepted and unused, as in the source;
a present entry without a `var_return` field would raise in Python
and cannot arise from `calculate_all_metrics` output.) -/
def backtest_results (logF chi2cdf : ℚ → ℚ) (returns : List ℚ)
    (var_metrics : List (String × MetricEntry)) (_position_value : ℚ) :
    Option (List (String × BTReport)) :=
  if returns.length < 30 then none
  else
    let total_days := returns.length
    some (([(95 / 100 : ℚ), 99 / 100]).foldl (fun results confidence =>
      let label := confLabel confidence
      match (var_metrics.lookup ("var_" ++ label ++ "_hist")).bind
        MetricEntry.varReturn? with
      | none => results
      | some var_threshold =>
        let breaches := count_breaches returns var_threshold
        let tl := basel_traffic_light breaches total_days confidence
        let kupiec := kupiec_test logF chi2cdf breaches total_days confidence
        results ++ [(label,
          ⟨breaches, total_days, (breaches : ℚ) / (total_days : ℚ),
            1 - confidence, tl.1, tl.2, kupiec⟩)]) [])

/-! ### Stress testing (src/stress_testing/scenarios.py) -/

/-- One catalog scenario. -/
structure Scenario where
  name : String
  nifty_shock : ℚ
  equity_correlation : Option ℚ
  vol_multiplier : Option ℚ
  deriving DecidableEq, Repr

/-- The fixed scenario catalog of `StressTestEngine.__init__`. -/
def scenarios : List (String × Scenario) :=
  [("market_crash", ⟨"Market Crash (-3σ)", -15 / 100, some (9 / 10), none⟩),
   ("covid_style", ⟨"COVID-style Crash", -38 / 100, some (95 / 100), none⟩),
   ("volatility_spike", ⟨"Volatility Spike", -10 / 100, none, some (5 / 2)⟩),
   ("2008_crisis", ⟨"2008-style Crisis", -52 / 100, some (98 / 100), none⟩)]

/-- The Python membership test `'^NSEI' in symbol` (substring). -/
def isIndexSymbol (symbol : String) : Bool :=
  decide ("^NSEI".toList <:+: symbol.toList)

/-- Per-instrument stress row `{position, loss, loss_pct}`. -/
structure StressRow where
  position : ℚ
  loss : ℚ
  loss_pct : ℚ
  deriving DecidableEq, Repr

/-- Result record of `apply_scenario`. -/
structure StressResult where
  scenario_name : String
  total_loss : ℚ
  asset_breakdown : List (String × StressRow)
  deriving DecidableEq, Repr

/-- The loss of one instrument under a scenario: the full index shock
for the index instrument, the correlation-scaled shock (factor
defaulting to 0.8) for every other instrument. -/
def instrumentLoss (sc : Scenario) (symbol : String) (position : ℚ) : ℚ :=
  if isIndexSymbol symbol then position * |sc.nifty_shock|
  else position * |sc.nifty_shock * (sc.equity_correlation.getD (8 / 10))|

/-- `StressTestEngine.apply_scenario` (its unused `returns_data`
parameter is omitted): unknown scenario names fail, otherwise the
per-instrument loss rows and the total loss. -/
def apply_scenario (scenario_name : String)
    (position_values : List (String × ℚ)) : Option StressResult :=
  match scenarios.lookup scenario_name with
  | none => none
  | some sc =>
    let rows := position_values.map (fun sp =>
      let loss := instrumentLoss sc sp.1 sp.2
      (sp.1, StressRow.mk sp.2 loss (loss / sp.2 * 100)))
    some ⟨sc.name, (rows.map (fun r => r.2.loss)).sum, rows⟩

/-! ### Alert monitor (src/alerts/monitor.py) -/

/-- One breach alert (the wall-clock `timestamp` field is outside the
embedding). -/
structure Alert where
  level : String
  severity : String
  symbol : String
  ret : ℚ
  threshold : ℚ
  excess : ℚ
  deriving DecidableEq, Repr

/-- The alerts emitted by one `check_breach` call: one CRITICAL 99%
alert, else one WARNING 95% alert, else none. -/
def checkBreachAlerts (current_return var_95 var_99 : ℚ) (symbol : String) :
    List Alert :=
  let abs_return := |current_return * 100|
  if abs_return > var_99 then
    [⟨"99%", "CRITICAL", symbol, current_return * 100, var_99,
      abs_return - var_99⟩]
  else if abs_return > var_95 then
    [⟨"95%", "WARNING", symbol, current_return * 100, var_95,
      abs_return - var_95⟩]
  else []

/-- The mutable state of `AlertMonitor`: the bounded ring of alerts
(`deque(maxlen=capacity)`) and the two lifetime breach counters. -/
structure Monitor where
  capacity : ℕ
  alerts : List Alert
  count95 : ℕ
  count99 : ℕ
  deriving DecidableEq, Repr

/-- `AlertMonitor.__init__(max_alerts)`: empty ring, zero counters. -/
def Monitor.init (max_alerts : ℕ) : Monitor := ⟨max_alerts, [], 0, 0⟩

/-- Append to a `deque(maxlen=K)`: the oldest entries are evicted so
that only the most recent `K` remain. -/
def pushRing (K : ℕ) (xs : List Alert) (a : Alert) : List Alert :=
  (xs ++ [a]).drop (xs.length + 1 - K)

/-- The per-alert body of `check_breach`'s recording loop: increment
the matching lifetime counter and append to the ring. -/
def recordAlert (st : Monitor) (a : Alert) : Monitor :=
  { st with
    alerts := pushRing st.capacity st.alerts a
    count95 := if a.level = "95%" then st.count95 + 1 else st.count95
    count99 := if a.level = "99%" then st.count99 + 1 else st.count99 }

/-- `AlertMonitor.check_breach`: emits the alerts, increments the
matching lifetime counter for each, and appends each to the ring. -/
def Monitor.check (m : Monitor) (current_return var_95 var_99 : ℚ)
    (symbol : String) : Monitor × List Alert :=
  let breaches := checkBreachAlerts current_return var_95 var_99 symbol
  (breaches.foldl recordAlert m, breaches)

/-- Run a sequence of `check_breach` calls, keeping only the state. -/
def Monitor.runCalls (m : Monitor) (calls : List (ℚ × ℚ × ℚ × String)) :
    Monitor :=
  calls.foldl (fun st c => (st.check c.1 c.2.1 c.2.2.1 c.2.2.2).1) m

/-- `AlertMonitor.get_recent_alerts(n)`: the last `n` ring entries. -/
def Monitor.recentAlerts (m : Monitor) (n : ℕ) : List Alert :=
  m.alerts.drop (m.alerts.length - n)

/-- `AlertMonitor.get_alert_summary`. -/
structure Summary where
  total_alerts : ℕ
  breaches95 : ℕ
  breaches99 : ℕ
  recent : List Alert
  deriving DecidableEq, Repr

/-- `AlertMonitor.get_alert_summary`: ring size, lifetime counters and
the 5 most recent alerts. -/
def Monitor.summary (m : Monitor) : Summary :=
  ⟨m.alerts.length, m.count95, m.count99, m.recentAlerts 5⟩

/-- `AlertMonitor.reset_counts`: zero both counters, clear the ring. -/
def Monitor.reset (m : Monitor) : Monitor :=
  { m with alerts := [], count95 := 0, count99 := 0 }

/-- A 10-observation return series whose VaR boundary at c = 0.85 is a
gain: one -5% loss followed by nine +3% gains. -/
def mixedReturns : List ℚ :=
  [-5 / 100, 3 / 100, 3 / 100, 3 / 100, 3 / 100, 3 / 100, 3 / 100, 3 / 100,
   3 / 100, 3 / 100]

/-! ### Theorems -/

/-- C4: `basel_traffic_light` at confidence 0.95 returns GREEN iff
breaches ≤ 4, YELLOW iff 5 ≤ breaches ≤ 9, RED iff breaches ≥ 10; at
0.99 it returns GREEN iff breaches ≤ 2 and RED otherwise, never
YELLOW; and the classification does not depend on `total_days`. -/
theorem basel_bands (b n : ℕ) :
    ((basel_traffic_light b n (95 / 100)).1 = Light.GREEN ↔ b ≤ 4) ∧
    ((basel_traffic_light b n (95 / 100)).1 = Light.YELLOW ↔ 5 ≤ b ∧ b ≤ 9) ∧
    ((basel_traffic_light b n (95 / 100)).1 = Light.RED ↔ 10 ≤ b) ∧
    ((basel_traffic_light b n (99 / 100)).1 = Light.GREEN ↔ b ≤ 2) ∧
    ((basel_traffic_light b n (99 / 100)).1 = Light.RED ↔ ¬ b ≤ 2) ∧
    (basel_traffic_light b n (99 / 100)).1 ≠ Light.YELLOW ∧
    (∀ (n' : ℕ) (c : ℚ), basel_traffic_light b n c = basel_traffic_light b n' c) := by
  refine ⟨?_, ?_, ?_, ?_, ?_, ?_, fun n' c => rfl⟩ <;>
    · simp only [basel_traffic_light]
      norm_num
      split_ifs <;> simp_all <;> omega

/-- C10: for every confidence other than exactly 0.95,
`basel_traffic_light` applies the two-band 99% scheme: GREEN iff
breaches ≤ 2, RED otherwise, never YELLOW. -/
theorem basel_nondefault_band (b n : ℕ) (c : ℚ) (hc : c ≠ 95 / 100) :
    ((basel_traffic_light b n c).1 = Light.GREEN ↔ b ≤ 2) ∧
    ((basel_traffic_light b n c).1 = Light.RED ↔ ¬ b ≤ 2) ∧
    (basel_traffic_light b n c).1 ≠ Light.YELLOW := by
  simp only [basel_traffic_light, if_neg hc]
  split_ifs <;> simp_all

/-- Witness for C10 at confidence 0.90: three breaches are RED. -/
theorem basel_nondefault_band_witness :
    (basel_traffic_light 3 250 (9 / 10)).1 = Light.RED :=
  (basel_nondefault_band 3 250 (9 / 10) (by norm_num)).2.1.mpr (by omega)

/-- C5: for every log and chi-square-cdf function, every confidence and
every positive number of days, the Kupiec LR statistic is exactly 0
when the breach count is 0 or equals the total days, and the model is
rejected iff the statistic exceeds the fixed critical value 3.841. -/
theorem kupiec_edge_and_reject (logF chi2cdf : ℚ → ℚ) (b n : ℕ) (c : ℚ)
    (hn : 1 ≤ n) :
    ((b = 0 ∨ b = n) →
      (kupiec_test logF chi2cdf b n c).lr_statistic = 0) ∧
    ((kupiec_test logF chi2cdf b n c).reject_model = true ↔
      (kupiec_test logF chi2cdf b n c).lr_statistic > 3841 / 1000) := by
  constructor
  · intro h
    simp only [kupiec_test, if_pos h]
  · simp only [kupiec_test]
    exact decide_eq_true_iff

/-- Witness for C5: zero breaches over 250 days give statistic 0. -/
theorem kupiec_edge_and_reject_witness :
    (kupiec_test (fun _ => 0) (fun _ => 0) 0 250 (95 / 100)).lr_statistic = 0 :=
  (kupiec_edge_and_reject (fun _ => 0) (fun _ => 0) 0 250 (95 / 100)
    (by norm_num)).1 (Or.inl rfl)

/-- C3: for returns of length ≥ 10, confidence 0 < c < 1 and
non-negative position value, `historical_var` sorts the returns
ascending (any sorted permutation gives the same answer), reads the
entry at index `⌊(1-c)·n⌋`, and returns its absolute value as a
percentage together with the dollar figure `|sorted[k]| · v`; for
fewer than 10 returns it yields `none`. -/
theorem hist_var_spec (returns : List ℚ) (c v : ℚ) (sorted : List ℚ) :
    (10 ≤ returns.length → 0 < c → c < 1 → 0 ≤ v →
      returns.Perm sorted → sorted.Sorted (· ≤ ·) →
      historical_var returns c v =
        some ⟨|sorted.getD (varIndex c returns.length) 0| * 100,
              |sorted.getD (varIndex c returns.length) 0| * v, c⟩) ∧
    (returns.length < 10 → historical_var returns c v = none) := by
  constructor
  · intro h10 _hc0 _hc1 hv hperm hsorted
    have hsr : sortedR returns = sorted :=
      List.eq_of_perm_of_sorted ((List.perm_insertionSort _ _).trans hperm)
        (List.sorted_insertionSort _ _) hsorted
    simp only [historical_var, if_neg (by omega : ¬ returns.length < 10), hsr]
    simp [abs_mul, abs_of_nonneg hv, mul_comm]
  · intro h
    simp [historical_var, if_pos h]

/-- Witness for C3: ten sorted returns 1..10 at c = 0.95 give index 0,
VaR return 100% and dollar VaR 2 on a position of 2. -/
theorem hist_var_spec_witness :
    historical_var [1, 2, 3, 4, 5, 6, 7, 8, 9, 10] (95 / 100) 2 =
      some ⟨100, 2, 95 / 100⟩ := by
  rw [(hist_var_spec [1, 2, 3, 4, 5, 6, 7, 8, 9, 10] (95 / 100) 2
    [1, 2, 3, 4, 5, 6, 7, 8, 9, 10]).1
    (by norm_num) (by norm_num) (by norm_num) (by norm_num)
    (List.Perm.refl _) (by norm_num [List.sorted_cons])]
  norm_num [varIndex]

/-- C6: one `check_breach` call emits exactly one CRITICAL 99% alert
when `|r|·100 > var99` (and no 95% alert), else exactly one WARNING
95% alert when `|r|·100 > var95`, else nothing; in particular a 12%
return against var95 = 10, var99 = 15 yields exactly one WARNING with
excess 2. -/
theorem check_breach_cases (r v95 v99 : ℚ) (s : String) :
    (|r| * 100 > v99 →
      checkBreachAlerts r v95 v99 s =
        [⟨"99%", "CRITICAL", s, r * 100, v99, |r| * 100 - v99⟩]) ∧
    (¬ |r| * 100 > v99 → |r| * 100 > v95 →
      checkBreachAlerts r v95 v99 s =
        [⟨"95%", "WARNING", s, r * 100, v95, |r| * 100 - v95⟩]) ∧
    (¬ |r| * 100 > v99 → ¬ |r| * 100 > v95 →
      checkBreachAlerts r v95 v99 s = []) ∧
    checkBreachAlerts (12 / 100) 10 15 "PORTFOLIO" =
      [⟨"95%", "WARNING", "PORTFOLIO", 12, 10, 2⟩] := by
  have habs : |r * 100| = |r| * 100 := by
    rw [abs_mul]
    norm_num
  refine ⟨fun h => ?_, fun h1 h2 => ?_, fun h1 h2 => ?_, ?_⟩
  · simp only [checkBreachAlerts, habs]
    rw [if_pos h]
  · simp only [checkBreachAlerts, habs]
    rw [if_neg h1, if_pos h2]
  · simp only [checkBreachAlerts, habs]
    rw [if_neg h1, if_neg h2]
  · simp only [checkBreachAlerts]
    norm_num [abs_of_nonneg]

/-- Witness for C6: a 100% loss against var99 = 15 is CRITICAL. -/
theorem check_breach_cases_witness :
    checkBreachAlerts 1 10 15 "P" = [⟨"99%", "CRITICAL", "P", 100, 15, 85⟩] := by
  have h := (check_breach_cases 1 10 15 "P").1 (by norm_num)
  rw [h]
  norm_num

lemma strKey95 : "var_" ++ "95%" ++ "_hist" = "var_95%_hist" := rfl

lemma strKey99 : "var_" ++ "99%" ++ "_hist" = "var_99%_hist" := rfl

lemma confLabel_95 : confLabel (95 / 100) = "95%" := by
  norm_num [confLabel]
  rfl

lemma confLabel_99 : confLabel (99 / 100) = "99%" := by
  norm_num [confLabel]
  rfl

/-- C8: `apply_scenario` fails on names outside the catalog; for a
catalog scenario the index instrument loses `position · |indexShock|`,
every other instrument loses
`position · |indexShock · correlationFactor|` with the factor
defaulting to 0.8, and the total loss is the sum of the rows; the
`market_crash` example loses 1,500,000 + 675,000 = 2,175,000. -/
theorem apply_scenario_spec (name : String)
    (positions : List (String × ℚ)) :
    (scenarios.lookup name = none → apply_scenario name positions = none) ∧
    (∀ sc, scenarios.lookup name = some sc →
      apply_scenario name positions =
        some ⟨sc.name,
          (positions.map (fun sp =>
            if isIndexSymbol sp.1 then sp.2 * |sc.nifty_shock|
            else sp.2 *
              |sc.nifty_shock * (sc.equity_correlation.getD (8 / 10))|)).sum,
          positions.map (fun sp =>
            (sp.1, ⟨sp.2, instrumentLoss sc sp.1 sp.2,
                    instrumentLoss sc sp.1 sp.2 / sp.2 * 100⟩))⟩) ∧
    apply_scenario "market_crash"
        [("^NSEI", 10000000), ("RELIANCE.NS", 5000000)] =
      some ⟨"Market Crash (-3σ)", 2175000,
        [("^NSEI", ⟨10000000, 1500000, 15⟩),
         ("RELIANCE.NS", ⟨5000000, 675000, 27 / 2⟩)]⟩ := by
  refine ⟨fun h => ?_, fun sc h => ?_, ?_⟩
  · simp [apply_scenario, h]
  · simp only [apply_scenario, h, List.map_map]
    rfl
  · have h1 : isIndexSymbol "^NSEI" = true := rfl
    have h2 : isIndexSymbol "RELIANCE.NS" = false := rfl
    have hlk : scenarios.lookup "market_crash" =
        some ⟨"Market Crash (-3σ)", -15 / 100, some (9 / 10), none⟩ := rfl
    have ha : |(-15 : ℚ) / 100| = 15 / 100 := by
      rw [show ((-15 : ℚ) / 100) = -(15 / 100) by norm_num, abs_neg,
        abs_of_nonneg (by norm_num : (0 : ℚ) ≤ 15 / 100)]
    have hb : |(-15 : ℚ) / 100 * (9 / 10)| = 27 / 200 := by
      rw [show ((-15 : ℚ) / 100 * (9 / 10)) = -(27 / 200) by norm_num, abs_neg,
        abs_of_nonneg (by norm_num : (0 : ℚ) ≤ 27 / 200)]
    simp only [apply_scenario, hlk, instrumentLoss, h1, h2, if_true, if_false,
      Option.getD_some, List.map_cons, List.map_nil, ha, hb]
    norm_num

/-- Witness for C8: an unknown scenario name fails. -/
theorem apply_scenario_spec_witness :
    apply_scenario "flash_crash" [("^NSEI", 1)] = none :=
  (apply_scenario_spec "flash_crash" [("^NSEI", 1)]).1 (by rfl)

/-- C9: the aggregates never fail because a sub-computation is
unavailable: `calculate_all_metrics` on fewer than 10 returns is the
empty mapping, and `backtest_results` (on an adequate sample) returns
a mapping that silently omits every confidence level whose
historical-VaR entry is missing from the metrics mapping. -/
theorem aggregate_omits_unavailable :
    (∀ (sqrtF ppf : ℚ → ℚ) (returns : List ℚ) (v : ℚ),
      returns.length < 10 → calculate_all_metrics sqrtF ppf returns v = []) ∧
    (∀ (logF chi2cdf : ℚ → ℚ) (returns : List ℚ)
        (vm : List (String × MetricEntry)) (v : ℚ), 30 ≤ returns.length →
      ∃ res, backtest_results logF chi2cdf returns vm v = some res ∧
        (vm.lookup "var_95%_hist" = none → res.lookup "95%" = none) ∧
        (vm.lookup "var_99%_hist" = none → res.lookup "99%" = none)) := by
  constructor
  · intro sqrtF ppf returns v h
    simp [calculate_all_metrics, historical_var, parametric_var,
      expected_shortfall, h]
  · intro logF chi2cdf returns vm v h30
    simp only [backtest_results, if_neg (by omega : ¬ returns.length < 30)]
    refine ⟨_, rfl, fun h95 => ?_, fun h99 => ?_⟩
    · simp only [List.foldl, confLabel_95, confLabel_99, strKey95, strKey99,
        h95, Option.none_bind]
      cases hl : vm.lookup "var_99%_hist" with
      | none => simp
      | some entry => cases hv : entry.varReturn? <;> simp [hv, List.lookup]
    · simp only [List.foldl, confLabel_95, confLabel_99, strKey95, strKey99,
        h99, Option.none_bind]
      cases hl : vm.lookup "var_95%_hist" with
      | none => simp
      | some entry => cases hv : entry.varReturn? <;> simp [hv, List.lookup]

/-- Counterexample to C1 as stated: on `mixedReturns` (length 10) at
confidence 0.85 ∈ (0,1), the VaR boundary is the gain +3%, so the VaR
return is 3 while the ES return (the absolute tail mean) is only 1 —
Expected Shortfall is strictly below historical VaR. -/
theorem es_below_var_cex :
    mixedReturns.length = 10 ∧ (0 : ℚ) < 85 / 100 ∧ (85 / 100 : ℚ) < 1 ∧
    (expected_shortfall mixedReturns (85 / 100) 1000000).map ESRes.es_return =
      some 1 ∧
    (historical_var mixedReturns (85 / 100) 1000000).map HistRes.var_return =
      some 3 ∧
    (1 : ℚ) < 3 := by
  have hl10 : mixedReturns.length = 10 := by norm_num [mixedReturns]
  have hsort : sortedR mixedReturns = mixedReturns := by
    apply List.eq_of_perm_of_sorted (List.perm_insertionSort _ _)
      (List.sorted_insertionSort _ _)
    norm_num [mixedReturns, List.sorted_cons]
  have hvi : varIndex (85 / 100) 10 = 1 := by norm_num [varIndex]
  refine ⟨hl10, by norm_num, by norm_num, ?_, ?_, by norm_num⟩
  · rw [expected_shortfall, if_neg (by rw [hl10]; norm_num), hl10, hvi, hsort]
    dsimp only
    have htake : mixedReturns.take (1 + 1) = [-5 / 100, 3 / 100] := by
      simp [mixedReturns]
    rw [htake]
    have hv2 : listMean [-5 / 100, 3 / 100] = -(1 / 100) := by
      rw [listMean]
      norm_num
    rw [hv2, abs_neg, abs_of_nonneg (by norm_num : (0 : ℚ) ≤ 1 / 100)]
    norm_num
  · rw [historical_var, if_neg (by rw [hl10]; norm_num), hl10, hvi, hsort]
    dsimp only
    have hg : mixedReturns.getD 1 0 = 3 / 100 := by simp [mixedReturns]
    rw [hg, abs_of_nonneg (by norm_num : (0 : ℚ) ≤ 3 / 100)]
    norm_num

/-- C1 (amended): Expected Shortfall dominates historical VaR at the
same confidence whenever the VaR boundary return (the k-th smallest)
is a loss or zero — the averaged tail then lies entirely at or below
the boundary.  (When the boundary is a gain the absolute values can
invert the comparison: see the counterexample.) -/
theorem es_ge_var_when_boundary_loss (returns : List ℚ) (c v : ℚ)
    (h10 : 10 ≤ returns.length) (hc0 : 0 < c) (hc1 : c < 1)
    (hb : (sortedR returns).getD (varIndex c returns.length) 0 ≤ 0) :
    ∃ e h, expected_shortfall returns c v = some e ∧
      historical_var returns c v = some h ∧
      h.var_return ≤ e.es_return := by
  have hlen : (sortedR returns).length = returns.length :=
    (List.perm_insertionSort _ _).length_eq
  have hn0 : 0 < returns.length := by omega
  have hnq : (0 : ℚ) < (returns.length : ℚ) := by exact_mod_cast hn0
  have hkn : varIndex c returns.length < returns.length := by
    have hfl : ⌊(1 - c) * (returns.length : ℚ)⌋ < (returns.length : ℤ) := by
      apply Int.floor_lt.mpr
      push_cast
      nlinarith [mul_pos hc0 hnq]
    unfold varIndex
    omega
  have hks : varIndex c returns.length < (sortedR returns).length := by omega
  have htl : ((sortedR returns).take (varIndex c returns.length + 1)).length =
      varIndex c returns.length + 1 := by
    rw [List.length_take]
    omega
  have hbv : (sortedR returns).getD (varIndex c returns.length) 0 =
      (sortedR returns).get ⟨varIndex c returns.length, hks⟩ :=
    List.getD_eq_getElem _ _ hks
  have hmem : ∀ x ∈ (sortedR returns).take (varIndex c returns.length + 1),
      x ≤ (sortedR returns).getD (varIndex c returns.length) 0 := by
    intro x hx
    obtain ⟨i, hi, rfl⟩ := List.mem_take_iff_getElem.mp hx
    rw [hbv]
    exact (List.sorted_insertionSort _ _).rel_get_of_le
      (by simp only [Fin.mk_le_mk]; omega)
  have hsum : ((sortedR returns).take (varIndex c returns.length + 1)).sum ≤
      ((varIndex c returns.length + 1 : ℕ) : ℚ) *
        (sortedR returns).getD (varIndex c returns.length) 0 := by
    have h := List.sum_le_card_nsmul _ _ hmem
    rwa [htl, nsmul_eq_mul] at h
  have hmean : listMean ((sortedR returns).take (varIndex c returns.length + 1)) ≤
      (sortedR returns).getD (varIndex c returns.length) 0 := by
    rw [listMean, htl]
    rw [div_le_iff₀ (by positivity)]
    linarith [hsum]
  have hmean0 :
      listMean ((sortedR returns).take (varIndex c returns.length + 1)) ≤ 0 :=
    le_trans hmean hb
  have habs : |(sortedR returns).getD (varIndex c returns.length) 0| ≤
      |listMean ((sortedR returns).take (varIndex c returns.length + 1))| := by
    rw [abs_of_nonpos hmean0, abs_of_nonpos hb]
    linarith [hmean]
  refine ⟨⟨|listMean ((sortedR returns).take (varIndex c returns.length + 1))| * 100,
      |listMean ((sortedR returns).take (varIndex c returns.length + 1))| * v, c⟩,
    ⟨|(sortedR returns).getD (varIndex c returns.length) 0| * 100,
      |(sortedR returns).getD (varIndex c returns.length) 0 * v|, c⟩, ?_, ?_, ?_⟩
  · rw [expected_shortfall, if_neg (by omega)]
  · rw [historical_var, if_neg (by omega)]
  · simp only
    linarith [habs]

/-- Witness for C1: ten identical -1% returns at c = 0.95 have their
VaR boundary at a loss, and ES then dominates VaR. -/
theorem es_ge_var_when_boundary_loss_witness :
    ∃ e h, expected_shortfall
        [-1/100, -1/100, -1/100, -1/100, -1/100, -1/100, -1/100, -1/100,
         -1/100, -1/100] (95 / 100) 1 = some e ∧
      historical_var
        [-1/100, -1/100, -1/100, -1/100, -1/100, -1/100, -1/100, -1/100,
         -1/100, -1/100] (95 / 100) 1 = some h ∧
      h.var_return ≤ e.es_return := by
  apply es_ge_var_when_boundary_loss
  · norm_num
  · norm_num
  · norm_num
  · have hs : sortedR [-1/100, -1/100, -1/100, -1/100, -1/100, -1/100, -1/100,
        -1/100, -1/100, -1/100] = [(-1 : ℚ)/100, -1/100, -1/100, -1/100,
        -1/100, -1/100, -1/100, -1/100, -1/100, -1/100] := by
      apply List.eq_of_perm_of_sorted (List.perm_insertionSort _ _)
        (List.sorted_insertionSort _ _)
      norm_num [List.sorted_cons]
    rw [hs]
    have hgd : ([(-1 : ℚ)/100, -1/100, -1/100, -1/100, -1/100, -1/100, -1/100,
        -1/100, -1/100, -1/100].getD
          (varIndex (95/100) ([(-1 : ℚ)/100, -1/100, -1/100, -1/100, -1/100,
            -1/100, -1/100, -1/100, -1/100, -1/100] : List ℚ).length) 0) =
        -1/100 := by
      have : varIndex (95/100) ([(-1 : ℚ)/100, -1/100, -1/100, -1/100, -1/100,
          -1/100, -1/100, -1/100, -1/100, -1/100] : List ℚ).length = 0 := by
        norm_num [varIndex]
      rw [this]
      simp
    rw [hgd]
    norm_num

/-- Counterexample to C2 as stated: the two-point price series
`[1, 0]` has a zero price, so the log-return series is `[-inf]`, and
`dropna()` keeps the infinity — the result contains a non-finite
value instead of having every non-finite value removed. -/
theorem calc_returns_keeps_inf :
    calculate_returns [1, 0] = some [RVal.ninf] ∧
    RVal.ninf.isFinite = false := by
  refine ⟨?_, rfl⟩
  norm_num [calculate_returns, logRet]
  decide

/-- C2 (amended): fewer than 2 prices fails with `none`; the result
never contains a NaN (those are dropped), and for positive prices it
is exactly the log-return series `ln(P[t]/P[t-1])` for t = 1..n-1
(infinities, however, are not removed — see the counterexample). -/
theorem calc_returns_spec (prices : List ℚ) :
    (prices.length < 2 → calculate_returns prices = none) ∧
    (∀ l, calculate_returns prices = some l → RVal.nan ∉ l) ∧
    (2 ≤ prices.length → (∀ p ∈ prices, 0 < p) →
      calculate_returns prices =
        some ((prices.zip prices.tail).map
          (fun pq => RVal.fin (pq.2 / pq.1)))) := by
  refine ⟨fun h => ?_, fun l hl hnan => ?_, fun h2 hpos => ?_⟩
  · simp [calculate_returns, h]
  · simp only [calculate_returns] at hl
    split at hl
    · exact Option.noConfusion hl
    · obtain rfl := Option.some.inj hl
      have := (List.mem_filter.mp hnan).2
      simp at this
  · have hmap : (prices.zip prices.tail).map (fun pq => logRet pq.1 pq.2) =
        (prices.zip prices.tail).map (fun pq => RVal.fin (pq.2 / pq.1)) := by
      apply List.map_congr_left
      intro pq hpq
      have h1 : 0 < pq.1 := hpos _ (List.of_mem_zip hpq).1
      have hq2 : 0 < pq.2 :=
        hpos _ (List.tail_subset prices (List.of_mem_zip hpq).2)
      simp only [logRet, if_neg h1.ne', if_pos (div_pos hq2 h1)]
    simp only [calculate_returns, if_neg (by omega : ¬ prices.length < 2), hmap]
    congr 1
    apply List.filter_eq_self.mpr
    intro a ha
    obtain ⟨pq, _, rfl⟩ := List.mem_map.mp ha
    exact decide_eq_true (fun h => RVal.noConfusion h)

/-- Witness for C2: strictly positive prices `[1, 2, 4]` give the
two finite log returns of ratios 2 and 2. -/
theorem calc_returns_spec_witness :
    calculate_returns [1, 2, 4] =
      some ((([1, 2, 4] : List ℚ).zip ([1, 2, 4] : List ℚ).tail).map
        (fun pq => RVal.fin (pq.2 / pq.1))) :=
  (calc_returns_spec [1, 2, 4]).2.2 (by norm_num)
    (by intro p hp; fin_cases hp <;> norm_num)

/-- Witness for C9: three observations give an empty metrics map. -/
theorem aggregate_omits_unavailable_witness :
    calculate_all_metrics (fun _ => 0) (fun _ => 0) [1, 2, 3] 5 = [] :=
  aggregate_omits_unavailable.1 (fun _ => 0) (fun _ => 0) [1, 2, 3] 5
    (by norm_num)

lemma pushRing_length (K : ℕ) (xs : List Alert) (a : Alert) :
    (pushRing K xs a).length = min (xs.length + 1) K := by
  simp only [pushRing, List.length_drop, List.length_append, List.length_cons,
    List.length_nil]
  omega

lemma recordAlert_capacity (st : Monitor) (a : Alert) :
    (recordAlert st a).capacity = st.capacity := rfl

lemma foldl_recordAlert_capacity (l : List Alert) (m : Monitor) :
    (l.foldl recordAlert m).capacity = m.capacity := by
  induction l generalizing m with
  | nil => rfl
  | cons a l ih => rw [List.foldl_cons, ih, recordAlert_capacity]

lemma foldl_recordAlert_length (l : List Alert) (m : Monitor)
    (h : m.alerts.length ≤ m.capacity) :
    (l.foldl recordAlert m).alerts.length =
      min (m.alerts.length + l.length) m.capacity := by
  induction l generalizing m with
  | nil =>
    simp only [List.foldl_nil, List.length_nil, Nat.add_zero]
    omega
  | cons a l ih =>
    rw [List.foldl_cons, ih]
    · simp only [recordAlert, pushRing_length, List.length_cons,
        foldl_recordAlert_capacity]
      omega
    · simp only [recordAlert, pushRing_length]
      omega

lemma foldl_recordAlert_count95 (l : List Alert) (m : Monitor) :
    (l.foldl recordAlert m).count95 =
      m.count95 + (l.filter (fun a => a.level = "95%")).length := by
  induction l generalizing m with
  | nil => simp
  | cons a l ih =>
    rw [List.foldl_cons, ih]
    by_cases h : a.level = "95%" <;>
      simp [recordAlert, h, List.filter_cons] <;> omega

lemma foldl_recordAlert_count99 (l : List Alert) (m : Monitor) :
    (l.foldl recordAlert m).count99 =
      m.count99 + (l.filter (fun a => a.level = "99%")).length := by
  induction l generalizing m with
  | nil => simp
  | cons a l ih =>
    rw [List.foldl_cons, ih]
    by_cases h : a.level = "99%" <;>
      simp [recordAlert, h, List.filter_cons] <;> omega

/-- The number of alerts a single call emits. -/
def emittedCount (c : ℚ × ℚ × ℚ × String) : ℕ :=
  (checkBreachAlerts c.1 c.2.1 c.2.2.1 c.2.2.2).length

lemma runCalls_capacity (calls : List (ℚ × ℚ × ℚ × String)) (m : Monitor) :
    (m.runCalls calls).capacity = m.capacity := by
  induction calls generalizing m with
  | nil => rfl
  | cons c calls ih =>
    simp only [Monitor.runCalls, List.foldl_cons]
    simp only [Monitor.runCalls] at ih
    rw [ih]
    exact foldl_recordAlert_capacity _ _

lemma runCalls_length (calls : List (ℚ × ℚ × ℚ × String)) (m : Monitor)
    (h : m.alerts.length ≤ m.capacity) :
    (m.runCalls calls).alerts.length =
      min (m.alerts.length + (calls.map emittedCount).sum) m.capacity := by
  induction calls generalizing m with
  | nil =>
    simp [Monitor.runCalls]
    omega
  | cons c calls ih =>
    simp only [Monitor.runCalls, List.foldl_cons]
    simp only [Monitor.runCalls] at ih
    rw [ih]
    · rw [Monitor.check]
      simp only [foldl_recordAlert_length _ _ h, foldl_recordAlert_capacity,
        List.map_cons, List.sum_cons, emittedCount]
      omega
    · rw [Monitor.check]
      simp only [foldl_recordAlert_length _ _ h, foldl_recordAlert_capacity]
      omega

lemma runCalls_count95 (calls : List (ℚ × ℚ × ℚ × String)) (m : Monitor) :
    (m.runCalls calls).count95 =
      m.count95 + (calls.map (fun c =>
        ((checkBreachAlerts c.1 c.2.1 c.2.2.1 c.2.2.2).filter
          (fun a => a.level = "95%")).length)).sum := by
  induction calls generalizing m with
  | nil => simp [Monitor.runCalls]
  | cons c calls ih =>
    simp only [Monitor.runCalls, List.foldl_cons]
    simp only [Monitor.runCalls] at ih
    rw [ih, Monitor.check]
    simp only [foldl_recordAlert_count95, List.map_cons, List.sum_cons]
    omega

lemma runCalls_count99 (calls : List (ℚ × ℚ × ℚ × String)) (m : Monitor) :
    (m.runCalls calls).count99 =
      m.count99 + (calls.map (fun c =>
        ((checkBreachAlerts c.1 c.2.1 c.2.2.1 c.2.2.2).filter
          (fun a => a.level = "99%")).length)).sum := by
  induction calls generalizing m with
  | nil => simp [Monitor.runCalls]
  | cons c calls ih =>
    simp only [Monitor.runCalls, List.foldl_cons]
    simp only [Monitor.runCalls] at ih
    rw [ih, Monitor.check]
    simp only [foldl_recordAlert_count99, List.map_cons, List.sum_cons]
    omega

lemma criticalCall_alerts :
    checkBreachAlerts 1 10 15 "P" =
      [⟨"99%", "CRITICAL", "P", 100, 15, 85⟩] := by
  rw [checkBreachAlerts, if_pos]
  · norm_num [abs_of_nonneg]
  · rw [abs_of_nonneg (by norm_num : (0 : ℚ) ≤ 1 * 100)]
    norm_num

/-- C7: the ring never holds more than the capacity `K`, the per-level
lifetime counters count every alert ever emitted at that level, a
`check_breach` call never decreases a counter, `reset` is the
operation that clears the ring and zeroes the counters, and after 150
breaching calls on a capacity-100 monitor the summary reports 100
ring entries while the lifetime counters total 150. -/
theorem alert_ring_and_counters :
    (∀ (K : ℕ) (calls : List (ℚ × ℚ × ℚ × String)),
      ((Monitor.init K).runCalls calls).alerts.length ≤ K ∧
      ((Monitor.init K).runCalls calls).count95 =
        (calls.map (fun c =>
          ((checkBreachAlerts c.1 c.2.1 c.2.2.1 c.2.2.2).filter
            (fun a => a.level = "95%")).length)).sum ∧
      ((Monitor.init K).runCalls calls).count99 =
        (calls.map (fun c =>
          ((checkBreachAlerts c.1 c.2.1 c.2.2.1 c.2.2.2).filter
            (fun a => a.level = "99%")).length)).sum) ∧
    (∀ (m : Monitor) (r v95 v99 : ℚ) (s : String),
      m.count95 ≤ ((m.check r v95 v99 s).1).count95 ∧
      m.count99 ≤ ((m.check r v95 v99 s).1).count99) ∧
    (∀ m : Monitor, m.reset.alerts = [] ∧ m.reset.count95 = 0 ∧
      m.reset.count99 = 0 ∧ m.reset.capacity = m.capacity) ∧
    ((Monitor.init 100).runCalls
      (List.replicate 150 (1, 10, 15, "P"))).summary.total_alerts = 100 ∧
    ((Monitor.init 100).runCalls
      (List.replicate 150 (1, 10, 15, "P"))).count99 = 150 ∧
    ((Monitor.init 100).runCalls
      (List.replicate 150 (1, 10, 15, "P"))).count95 = 0 := by
  have hinit : ∀ K : ℕ, (Monitor.init K).alerts.length ≤ (Monitor.init K).capacity := by
    intro K
    simp [Monitor.init]
  refine ⟨fun K calls => ⟨?_, ?_, ?_⟩, fun m r v95 v99 s => ⟨?_, ?_⟩,
    fun m => ⟨rfl, rfl, rfl, rfl⟩, ?_, ?_, ?_⟩
  · have h := runCalls_length calls (Monitor.init K) (hinit K)
    rw [h]
    simp [Monitor.init]
  · rw [runCalls_count95]
    simp [Monitor.init]
  · rw [runCalls_count99]
    simp [Monitor.init]
  · rw [Monitor.check]
    rw [foldl_recordAlert_count95]
    omega
  · rw [Monitor.check]
    rw [foldl_recordAlert_count99]
    omega
  · rw [Monitor.summary]
    have h := runCalls_length (List.replicate 150 (1, 10, 15, "P"))
      (Monitor.init 100) (hinit 100)
    rw [h]
    simp [Monitor.init, emittedCount, criticalCall_alerts, List.map_replicate]
  · rw [runCalls_count99]
    simp [Monitor.init, criticalCall_alerts, List.map_replicate, List.filter]
  · rw [runCalls_count95]
    simp [Monitor.init, criticalCall_alerts, List.map_replicate, List.filter]

end LMR
